import Mathlib

/-!
Verification of the opBNB → BSC bridge tool (Jaammerr/opBNB-BNB-Withdraw).

Shallow embedding of the per-wallet swap workflow (`core/swap_module.py`,
class `RhinoSwapModule`) and its orchestration (`core/bot.py`, class `Bot`).
Network and chain effects are modelled by an environment (`SwapEnv`) of
call results; every function records the network calls it performs in a
trace (`List NetCall`), so claims about call ordering ("no quote request is
ever sent") are statements about the trace.

Numeric conventions: Python `int` is modelled as `ℕ`/`ℤ`; `decimal.Decimal`
values are modelled as exact rationals `ℚ` (the module's Decimal operations
are exact at every magnitude it manipulates, and web3's `from_wei`/`to_wei`
run under a 999-digit precision context); the float literal `1.20` in
`int(gas_est * 1.20)` is modelled as the exact rational `120/100`.
-/

/-! ## Python runtime primitives -/

/-- Python `int(q)` on an exact numeric value: truncation toward zero. -/
def pyInt (q : ℚ) : ℤ := q.num.tdiv q.den

/-- Python truthiness filter for an optional string: `None` and `""` are falsy.
`truthyStr o = some s` exactly when `o = some s` with `s` non-empty. -/
def truthyStr (o : Option String) : Option String :=
  match o with
  | some s => if s = "" then none else some s
  | none => none

/-- Python truthiness filter for an optional integer: `None` and `0` are falsy. -/
def truthyNat (o : Option Nat) : Option Nat :=
  match o with
  | some n => if n = 0 then none else some n
  | none => none

/-- Python `d.get(k)` on a JSON object with string values, the object as an
association list (dict keys are unique; the first binding decides). -/
def pyDictGet (d : List (String × String)) (k : String) : Option String :=
  (d.find? (fun p => p.1 = k)).map (fun p => p.2)

/-- Simplified Python `repr` of a string (quoting, no escape modelling):
only used to build diagnostic error-message text. -/
def pyStrRepr (s : String) : String := "'" ++ s ++ "'"

/-- Simplified Python `repr` of a string-valued dict, for diagnostic text. -/
def pyDictRepr (d : List (String × String)) : String :=
  "\x7b" ++ String.intercalate ", "
    (d.map (fun p => pyStrRepr p.1 ++ ": " ++ pyStrRepr p.2)) ++ "\x7d"

/-- Lexicographic code-point comparison of character lists (Python string
order compares code points). -/
def strLeChars : List Char → List Char → Bool
  | [], _ => true
  | _ :: _, [] => false
  | a :: as, b :: bs =>
    if a.toNat < b.toNat then true
    else if b.toNat < a.toNat then false
    else strLeChars as bs

/-- Python string comparison `x <= y` (by code point). -/
def strLe (x y : String) : Bool := strLeChars x.data y.data

/-- Insertion of a string into a sorted list (ascending), for `sorted()`. -/
def insertStr (x : String) : List String → List String
  | [] => [x]
  | y :: t => if strLe x y then x :: y :: t else y :: insertStr x t

/-- Python `sorted()` on a list of strings (insertion sort, stable,
ascending by code point). -/
def sortStrs : List String → List String
  | [] => []
  | x :: t => insertStr x (sortStrs t)

/-! ## Gas and fee policy (`RhinoSwapModule._calc_max_send_wei`,
`RhinoSwapModule._send_native_deposit`, `core/swap_module.py` lines 107–145) -/

/-- The fixed conservative gas amount (`conservative_gas = 300_000`). -/
def conservative_gas : ℕ := 300000

/-- `Decimal("1.25")` — the default `safety_mul`, exact. -/
def safety_mul : ℚ := 125 / 100

/-- The fee buffer of `_calc_max_send_wei`:
`fee_buffer = int(Decimal(gas_price * conservative_gas) * safety_mul)`. -/
def fee_buffer (gas_price : ℕ) : ℤ :=
  pyInt ((gas_price * conservative_gas : ℕ) * safety_mul)

/-- The pure arithmetic of `_calc_max_send_wei` (the two RPC reads that feed
it are modelled in `calc_max_send_wei_run` below):
`max_send = balance - fee_buffer; return max_send if max_send > 0 else 0`. -/
def calc_max_send_wei (balance gas_price : ℕ) : ℤ :=
  let max_send : ℤ := (balance : ℤ) - fee_buffer gas_price
  if max_send > 0 then max_send else 0

/-- The fixed fallback gas limit used when estimation fails (`gas_limit = 300_000`). -/
def fallback_gas_limit : ℕ := 300000

/-- The gas limit of `_send_native_deposit`: `int(gas_est * 1.20)` when the
estimate succeeded, the fixed fallback when it raised. The float literal
`1.20` is modelled as the exact rational `120/100`. -/
def gas_limit_of (est : Except String ℕ) : ℕ :=
  match est with
  | Except.ok e => (pyInt ((e : ℚ) * (120 / 100))).toNat
  | Except.error _ => fallback_gas_limit

/-! ## Commitment-id derivation (`RhinoSwapModule._quote_id_to_commitment_int`,
`core/swap_module.py` lines 97–102) -/

/-- Value of one hexadecimal digit character, both cases. -/
def hexDigitVal (c : Char) : Option ℕ :=
  if '0' ≤ c ∧ c ≤ '9' then some (c.toNat - 48)
  else if 'a' ≤ c ∧ c ≤ 'f' then some (c.toNat - 97 + 10)
  else if 'A' ≤ c ∧ c ≤ 'F' then some (c.toNat - 65 + 10)
  else none

/-- Accumulating base-16 digit-run parser: fails on any non-hex character. -/
def parseHexCore : List Char → ℕ → Option ℕ
  | [], acc => some acc
  | c :: t, acc =>
    match hexDigitVal c with
    | some d => parseHexCore t (acc * 16 + d)
    | none => none

/-- Non-empty base-16 digit run (`int` requires at least one digit). -/
def parseHexRun (l : List Char) : Option ℕ :=
  match l with
  | [] => none
  | _ => parseHexCore l 0

/-- After an optional `0x`/`0X`, a non-empty base-16 digit run. -/
def parseHexBody (l : List Char) : Option ℕ :=
  match l with
  | '0' :: 'x' :: rest => parseHexRun rest
  | '0' :: 'X' :: rest => parseHexRun rest
  | rest => parseHexRun rest

/-- Python whitespace stripping on a character list (`str.strip()`). -/
def pyStripChars (l : List Char) : List Char :=
  ((l.dropWhile Char.isWhitespace).reverse.dropWhile Char.isWhitespace).reverse

/-- Python `str.lower()` on a character list (ASCII case, which is all the
module's hex identifiers use). -/
def pyLowerChars (l : List Char) : List Char := l.map Char.toLower

/-- Python `int(s, 16)`: optional surrounding whitespace, optional sign,
optional `0x` prefix, then a non-empty hex digit run. (Digit-group
underscores are not modelled; the module never produces them.) -/
def pyIntBase16 (l : List Char) : Option ℤ :=
  let t := pyStripChars l
  match t with
  | '+' :: rest => (parseHexBody rest).map (fun n => (n : ℤ))
  | '-' :: rest => (parseHexBody rest).map (fun n => -(n : ℤ))
  | rest => (parseHexBody rest).map (fun n => (n : ℤ))

/-- Drop one leading `0x` (`if q.startswith("0x"): q = q[2:]`, applied after
lowercasing, so only the lowercase form is matched). -/
def dropZeroX (l : List Char) : List Char :=
  match l with
  | '0' :: 'x' :: rest => rest
  | l => l

/-- `RhinoSwapModule._quote_id_to_commitment_int` on a character list:
`q = quote_id.strip().lower(); if q.startswith("0x"): q = q[2:]; return int(q, 16)`.
`none` models the `ValueError` that `int` raises on a non-hex literal. -/
def quote_id_to_commitment_int (l : List Char) : Option ℤ :=
  pyIntBase16 (dropZeroX (pyLowerChars (pyStripChars l)))

/-- `_quote_id_to_commitment_int` on a string. -/
def quote_id_commitment (s : String) : Option ℤ :=
  quote_id_to_commitment_int s.toList

/-! ## Amount formatting (`core/swap_module.py` lines 195–201 and 239) -/

/-- Decimal digit value of a character, `'0'`–`'9'` only. -/
def charDigitVal (c : Char) : Option ℕ :=
  if '0' ≤ c ∧ c ≤ '9' then some (c.toNat - 48) else none

/-- Character of one decimal digit. -/
def digitCharOf (d : ℕ) : Char := Char.ofNat (48 + d)

/-- Decimal digit characters of a natural number, most significant first
(Python `str` of an `int`). -/
def natDigitsBE (n : ℕ) : List Char :=
  if n = 0 then ['0'] else ((Nat.digits 10 n).map digitCharOf).reverse

/-- The 18 fractional-position digits of `fp < 10^18`, least significant
first (little-endian), zero-padded to length 18. -/
def fracLE18 (fp : ℕ) : List ℕ :=
  Nat.digits 10 fp ++ List.replicate (18 - (Nat.digits 10 fp).length) 0

/-- Fractional digit characters of `fp < 10^18` as printed by Decimal:
most significant first, trailing zeros removed (Decimal division reduces
the exact quotient to its ideal exponent). -/
def fracCharsOf (fp : ℕ) : List Char :=
  (((fracLE18 fp).dropWhile (fun d => d = 0)).reverse).map digitCharOf

/-- `format(Decimal(self._w3.from_wei(max_send_wei, "ether")), "f")`:
web3 `from_wei` divides by `10^18` exactly (999-digit Decimal context), and
`"f"`-formatting prints the plain decimal expansion with no exponent and no
trailing fractional zeros. -/
def from_wei_ether_str (w : ℕ) : List Char :=
  let ip := w / 10 ^ 18
  let fp := w % 10 ^ 18
  if fp = 0 then natDigitsBE ip else natDigitsBE ip ++ '.' :: fracCharsOf fp

/-- All-decimal-digit run value, most significant first; empty list is a
valid empty part of a Decimal literal, with value 0. -/
def digitsVal (l : List Char) : Option ℕ :=
  if l.all (fun c => (charDigitVal c).isSome) then
    some (l.foldl (fun acc c => acc * 10 + (charDigitVal c).getD 0) 0)
  else none

/-- Split a character list at the first `'.'` (absent dot gives an empty
fractional part). -/
def splitAtDot (l : List Char) : List Char × List Char :=
  match l.span (fun c => c ≠ '.') with
  | (a, []) => (a, [])
  | (a, _ :: b) => (a, b)

/-- `int(self._w3.to_wei(Decimal(s), "ether"))` for the non-negative decimal
literals this module produces: parse `intpart.fracpart`, multiply by `10^18`
exactly, truncate any sub-wei remainder (web3 `to_wei` multiplies under a
999-digit context and the module's final `int()` truncates). `none` models
the `decimal.InvalidOperation` a malformed literal raises. -/
def to_wei_ether (l : List Char) : Option ℕ :=
  let (a, b) := splitAtDot l
  if a = [] ∧ b = [] then none
  else if b.contains '.' then none
  else
    match digitsVal a, digitsVal b with
    | some ip, some fv =>
        if b.length ≤ 18 then some (ip * 10 ^ 18 + fv * 10 ^ (18 - b.length))
        else some (ip * 10 ^ 18 + fv / 10 ^ (b.length - 18))
    | _, _ => none

/-- Python `str.rstrip` with a single strip character, on character lists. -/
def pyRstripChar (c : Char) (l : List Char) : List Char :=
  (l.reverse.dropWhile (fun x => x = c)).reverse

/-- `f"{amount:.18f}".rstrip("0").rstrip(".")` for the explicit-amount path.
The float `amount` is modelled as an exact rational and the 18-decimal
rounding as rounding to nearest; no claim depends on this formatting, and the
path only ever evaluates it at positive amounts. -/
def explicit_amount_str (a : ℚ) : List Char :=
  let n := (round (a * 10 ^ 18)).toNat
  let ip := n / 10 ^ 18
  let fp := n % 10 ^ 18
  pyRstripChar '.' (pyRstripChar '0'
    (natDigitsBE ip ++ '.' :: ((fracLE18 fp).reverse).map digitCharOf))

/-! ## The per-wallet workflow (`RhinoSwapModule`, `core/swap_module.py`) -/

/-- One chain's entry in the `/bridge/configs` response, the three fields the
module reads (`chainId`, `contractAddress`, `nativeTokenName`); `none`
models an absent key, and Python truthiness is applied at each use site. -/
structure ChainCfgJson where
  chainId : Option ℕ
  contractAddress : Option String
  nativeTokenName : Option String
deriving DecidableEq

/-- The quote response fields the module reads. -/
structure QuoteJson where
  quoteId : Option String
  payAmount : Option String
  receiveAmount : Option String
deriving DecidableEq

/-- The commit response field the module reads. -/
structure CommitJson where
  quoteId : Option String
deriving DecidableEq

/-- One network or chain-RPC call, with the arguments relevant to the claims. -/
inductive NetCall where
  | auth
  | configsFetch
  | chainIdRead
  | balanceRead
  | gasPriceRead
  | estimateGasCall (value : ℕ)
  | nonceRead
  | quoteReq (amountStr : List Char)
  | commitReq (quoteId : String)
  | sendTx (value : ℕ) (gasLimit : ℕ)
deriving DecidableEq

/-- Environment of one wallet's workflow: the result each network or chain
call would yield if performed. `Except.error` models the exception that call
raises (`RuntimeError` from `_http`, a web3 provider error, …). The two
gas-price reads (one in `_calc_max_send_wei`, one in `_send_native_deposit`)
are independent oracles. -/
structure SwapEnv where
  authResult : Except String (List (String × String))
  configsResult : Except String (List (String × ChainCfgJson))
  w3ChainIdResult : Except String ℕ
  balanceResult : Except String ℕ
  gasPriceResult : Except String ℕ
  gasPriceResult2 : Except String ℕ
  estimateResult : Except String ℕ
  nonceResult : Except String ℕ
  sendResult : Except String String
  quoteResult : Except String QuoteJson
  commitResult : Except String CommitJson

/-- The ordered JWT extraction of `_get_jwt`:
`data.get("token") or data.get("jwt") or data.get("accessToken") or data.get("authorization")`
— the first candidate whose value is truthy (present and non-empty). -/
def jwtFromAuthData (d : List (String × String)) : Option String :=
  (truthyStr (pyDictGet d "token")).orElse (fun _ =>
    (truthyStr (pyDictGet d "jwt")).orElse (fun _ =>
      (truthyStr (pyDictGet d "accessToken")).orElse (fun _ =>
        truthyStr (pyDictGet d "authorization"))))

/-- `RhinoSwapModule._get_jwt` on a fresh module (the `self._jwt` cache is
empty): one auth POST, then the ordered candidate-field extraction. -/
def get_jwt (env : SwapEnv) : Except String String × List NetCall :=
  match env.authResult with
  | Except.error e => (Except.error e, [NetCall.auth])
  | Except.ok data =>
    match jwtFromAuthData data with
    | some jwt => (Except.ok jwt, [NetCall.auth])
    | none =>
      (Except.error ("Can't find JWT in response: " ++ pyDictRepr data), [NetCall.auth])

/-- `RhinoSwapModule._calc_max_send_wei`: a balance read, a gas-price read,
then the pure fee-buffer arithmetic. -/
def calc_max_send_wei_run (env : SwapEnv) : Except String ℤ × List NetCall :=
  match env.balanceResult with
  | Except.error e => (Except.error e, [NetCall.balanceRead])
  | Except.ok balance =>
    match env.gasPriceResult with
    | Except.error e => (Except.error e, [NetCall.balanceRead, NetCall.gasPriceRead])
    | Except.ok gp =>
      (Except.ok (calc_max_send_wei balance gp), [NetCall.balanceRead, NetCall.gasPriceRead])

/-- `RhinoSwapModule._send_native_deposit`: a gas-price read, a gas estimate
(whose failure only selects the fallback limit), a nonce read, then the
build/sign/broadcast of the deposit with the resolved gas limit. -/
def send_native_deposit (env : SwapEnv) (value_wei : ℕ) : Except String String × List NetCall :=
  match env.gasPriceResult2 with
  | Except.error e => (Except.error e, [NetCall.gasPriceRead])
  | Except.ok _gp =>
    let gasLimit := gas_limit_of env.estimateResult
    match env.nonceResult with
    | Except.error e =>
      (Except.error e,
        [NetCall.gasPriceRead, NetCall.estimateGasCall value_wei, NetCall.nonceRead])
    | Except.ok _nonce =>
      (env.sendResult,
        [NetCall.gasPriceRead, NetCall.estimateGasCall value_wei, NetCall.nonceRead,
          NetCall.sendTx value_wei gasLimit])

/-- `RhinoSwapModule.CHAIN_IN`. -/
def CHAIN_IN : String := "OPBNB"

/-- `RhinoSwapModule.TOKEN_IN`. -/
def TOKEN_IN : String := "BNB"

/-- Diagnostic rendering of one optional response field. -/
def pyOptField (k : String) (v : Option String) : List String :=
  match v with
  | some s => [pyStrRepr k ++ ": " ++ pyStrRepr s]
  | none => []

/-- Simplified repr of a quote response, for diagnostic text. -/
def pyQuoteRepr (q : QuoteJson) : String :=
  "\x7b" ++ String.intercalate ", "
    (pyOptField "quoteId" q.quoteId ++ pyOptField "payAmount" q.payAmount ++
      pyOptField "receiveAmount" q.receiveAmount) ++ "\x7d"

/-- Simplified repr of a commit response, for diagnostic text. -/
def pyCommitRepr (c : CommitJson) : String :=
  "\x7b" ++ String.intercalate ", " (pyOptField "quoteId" c.quoteId) ++ "\x7d"

/-- The `ValueError` text of `int(q, 16)` on a non-hex literal. -/
def int_base16_err (l : List Char) : String :=
  "invalid literal for int() with base 16: " ++ pyStrRepr (String.mk l)

/-- The exception a malformed Decimal literal raises in `to_wei`
(`decimal.InvalidOperation`; never reached on the strings the module builds). -/
def decimal_parse_err : String := "decimal.InvalidOperation"

/-- `process_swap` from amount resolution onward (lines 190–247): amount
resolution, quote request, quote commit, commitment-int derivation, wei
conversion, and the native deposit, threading the accumulated trace `t`. -/
def process_swap_rest (env : SwapEnv) (amount : Option ℚ) (t : List NetCall) :
    Except String String × List NetCall :=
  match (match amount with
         | none =>
           match calc_max_send_wei_run env with
           | (Except.error e, tc) => (Except.error e, t ++ tc)
           | (Except.ok ms, tc) =>
             if ms ≤ 0 then
               (Except.error "Not enough balance to pay gas + amount (amount=None).", t ++ tc)
             else (Except.ok (from_wei_ether_str ms.toNat), t ++ tc)
         | some a =>
           if a ≤ 0 then
             (Except.error "Amount must be > 0 (or None for max balance).", t)
           else (Except.ok (explicit_amount_str a), t)) with
  | (Except.error e, t4) => (Except.error e, t4)
  | (Except.ok amount_str, t4) =>
    match env.quoteResult with
    | Except.error e => (Except.error e, t4 ++ [NetCall.quoteReq amount_str])
    | Except.ok quote =>
      let t5 := t4 ++ [NetCall.quoteReq amount_str]
      match truthyStr quote.quoteId with
      | none => (Except.error ("Quote has no quoteId: " ++ pyQuoteRepr quote), t5)
      | some quote_id =>
        match env.commitResult with
        | Except.error e => (Except.error e, t5 ++ [NetCall.commitReq quote_id])
        | Except.ok commitResp =>
          let t6 := t5 ++ [NetCall.commitReq quote_id]
          match truthyStr commitResp.quoteId with
          | none => (Except.error ("Commit failed: " ++ pyCommitRepr commitResp), t6)
          | some committed_id =>
            match quote_id_commitment committed_id with
            | none =>
              (Except.error
                (int_base16_err (dropZeroX (pyLowerChars (pyStripChars committed_id.toList)))),
                t6)
            | some _commitment_int =>
              match to_wei_ether amount_str with
              | none => (Except.error decimal_parse_err, t6)
              | some value_wei =>
                match send_native_deposit env value_wei with
                | (r, ts) => (r, t6 ++ ts)

/-- The `try:` body of `RhinoSwapModule.process_swap` (lines 167–247):
authenticate, fetch configs, validate the route entry, resolve the chain id
(falling back to a chain-id RPC read when the config field is absent or 0),
validate the bridge address and native-token name, then `process_swap_rest`. -/
def process_swap_body (env : SwapEnv) (amount : Option ℚ) :
    Except String String × List NetCall :=
  match get_jwt env with
  | (Except.error e, t1) => (Except.error e, t1)
  | (Except.ok _jwt, t1) =>
    match env.configsResult with
    | Except.error e => (Except.error e, t1 ++ [NetCall.configsFetch])
    | Except.ok configs =>
      let t2 := t1 ++ [NetCall.configsFetch]
      match configs.find? (fun p => p.1 = CHAIN_IN) with
      | none =>
        (Except.error ("chainIn '" ++ CHAIN_IN ++ "' not found in configs. Available: " ++
          String.intercalate ", " (sortStrs (configs.map (fun p => p.1)))), t2)
      | some entry =>
        let chain_cfg := entry.2
        match (match truthyNat chain_cfg.chainId with
               | some cid => (Except.ok cid, t2)
               | none =>
                 match env.w3ChainIdResult with
                 | Except.error e => (Except.error e, t2 ++ [NetCall.chainIdRead])
                 | Except.ok cid => (Except.ok cid, t2 ++ [NetCall.chainIdRead])) with
        | (Except.error e, t3) => (Except.error e, t3)
        | (Except.ok _chain_id, t3) =>
          match truthyStr chain_cfg.contractAddress with
          | none =>
            (Except.error ("Missing contractAddress for chain '" ++ CHAIN_IN ++
              "' in rhino configs"), t3)
          | some _bridge_address =>
            match truthyStr chain_cfg.nativeTokenName with
            | some ntn =>
              if TOKEN_IN ≠ ntn then
                (Except.error ("tokenIn '" ++ TOKEN_IN ++ "' != nativeTokenName '" ++ ntn ++
                  "' for chain '" ++ CHAIN_IN ++ "'. This module expects native deposit."), t3)
              else process_swap_rest env amount t3
            | none => process_swap_rest env amount t3

/-- `RhinoSwapModule.process_swap`: the whole body under
`try: … except Exception as e: return False, str(e)` — every exception of
the body becomes the failure outcome `(False, str(e))`. -/
def process_swap (env : SwapEnv) (amount : Option ℚ) : (Bool × String) × List NetCall :=
  match process_swap_body env amount with
  | (Except.ok tx, t) => ((true, tx), t)
  | (Except.error e, t) => ((false, e), t)

/-! ## Orchestration (`Bot`, `core/bot.py`) -/

/-- The record `Bot.safe_swap` hands to
`file_operations.export_result(module.depositor_address, status, "rhino_bridge")`
(the result sink lives in `loader`, outside `src/`; the record is what the
call passes). -/
structure ResultRecord where
  address : String
  success : Bool
  category : String
deriving DecidableEq

/-- One wallet's unit of work as `Bot.process_swaps` creates it:
`keyParseResult` is the outcome of `RhinoSwapModule.__init__` — the
`from_key` parse of the private key, which happens inside `safe_swap` but
before its `try:` block — and `env`/`amount` feed `process_swap`
(`process_swaps` always passes `amount=None`). -/
structure WalletTask where
  keyParseResult : Except String String
  delay : ℕ
  env : SwapEnv
  amount : Option ℚ

/-- `Bot.safe_swap` for one wallet: construct the module (an unparseable key
raises here, outside the `try:`, so the exception escapes `safe_swap`), run
`process_swap`, and export one result record. `Except.error` is an exception
escaping the workflow; `Except.ok r` means exactly the record `r` was
persisted. -/
def safe_swap (t : WalletTask) : Except String ResultRecord :=
  match t.keyParseResult with
  | Except.error e => Except.error e
  | Except.ok addr =>
    Except.ok
      { address := addr, success := ((process_swap t.env t.amount).1).1,
        category := "rhino_bridge" }

/-- The record a wallet with a parseable key produces. -/
def wallet_record (t : WalletTask) : ResultRecord :=
  { address := t.keyParseResult.toOption.getD "",
    success := ((process_swap t.env t.amount).1).1,
    category := "rhino_bridge" }

/-- The result records persisted by a batch (`Bot.process_swaps` +
`asyncio.gather`): each task runs independently; a task whose `safe_swap`
raises persists nothing, the others still persist theirs. -/
def batch_records (ts : List WalletTask) : List ResultRecord :=
  ts.foldr
    (fun t acc =>
      match safe_swap t with
      | Except.ok r => r :: acc
      | Except.error _ => acc) []

/-! ## Concurrency model (`async with semaphore` in `Bot.safe_swap`)

Modelled from the spec: the counting semaphore itself is created in
`loader` (not under `src/`) with the configured thread count as capacity;
`Bot.safe_swap` wraps its whole body in `async with semaphore`. Each
`asyncio.create_task`-spawned `safe_swap` is one task of the transition
system: it waits, then holds the semaphore while its body runs, then
releases it. Acquisition is guarded by the semaphore count, release is
always enabled for a holder; interleaving is arbitrary. -/

/-- Phase of one spawned `safe_swap` task with respect to the semaphore. -/
inductive TaskPhase where
  | waiting
  | holding
  | finished
deriving DecidableEq

/-- Number of tasks currently inside `async with semaphore`. -/
def holdingCount : List TaskPhase → ℕ
  | [] => 0
  | p :: t => (if p = TaskPhase.holding then 1 else 0) + holdingCount t

/-- One scheduler step of a batch run under a capacity-`N` semaphore. -/
inductive SemStep (N : ℕ) : List TaskPhase → List TaskPhase → Prop
  | acquire (phases : List TaskPhase) (i : ℕ)
      (hw : phases.get? i = some TaskPhase.waiting)
      (hcap : holdingCount phases < N) :
      SemStep N phases (phases.set i TaskPhase.holding)
  | release (phases : List TaskPhase) (i : ℕ)
      (hh : phases.get? i = some TaskPhase.holding) :
      SemStep N phases (phases.set i TaskPhase.finished)

/-- A batch of `k` wallets starts with every task waiting. -/
def initPhases (k : ℕ) : List TaskPhase := List.replicate k TaskPhase.waiting

/-- States reachable during a batch run of `k` tasks with capacity `N`. -/
def SemReachable (N k : ℕ) (s : List TaskPhase) : Prop :=
  Relation.ReflTransGen (SemStep N) (initPhases k) s

/-! ## Helper lemmas -/

theorem pyInt_natCast (n : ℕ) : pyInt ((n : ℕ) : ℚ) = n := by
  unfold pyInt
  rw [Rat.num_natCast, Rat.den_natCast]
  exact Int.tdiv_one _

theorem pyInt_eq_floor (q : ℚ) (h : 0 ≤ q) : pyInt q = ⌊q⌋ := by
  unfold pyInt
  rw [Rat.floor_def]
  exact Int.tdiv_eq_ediv (Rat.num_nonneg.2 h) (Int.natCast_nonneg _)

theorem fee_buffer_eq (g : ℕ) : fee_buffer g = 375000 * (g : ℤ) := by
  unfold fee_buffer safety_mul conservative_gas
  have h : ((g * 300000 : ℕ) : ℚ) * (125 / 100) = ((375000 * g : ℕ) : ℚ) := by
    push_cast; ring
  rw [h, pyInt_natCast]
  push_cast; ring

theorem gas_limit_ok_eq (e : ℕ) : gas_limit_of (Except.ok e) = 6 * e / 5 := by
  simp only [gas_limit_of]
  have h : ((e : ℕ) : ℚ) * (120 / 100) = ((6 * e : ℕ) : ℚ) / ((5 : ℕ) : ℚ) := by
    push_cast; ring
  rw [pyInt_eq_floor _ (by positivity), h, Rat.floor_natCast_div_natCast]
  exact Int.toNat_natCast _

/-- C4: for every non-negative integer gas price g and balance b, the fee
buffer equals ceil(g × 300000 × 1.25) and the maximum sendable amount equals
max(b − feeBuffer, 0), exactly as integers. -/
theorem C4_fee_buffer_and_max_send (g b : ℕ) :
    fee_buffer g = ⌈(g : ℚ) * 300000 * (125 / 100)⌉
  ∧ calc_max_send_wei b g = max ((b : ℤ) - fee_buffer g) 0 := by
  constructor
  · rw [fee_buffer_eq]
    have h : (g : ℚ) * 300000 * (125 / 100) = ((375000 * g : ℕ) : ℚ) := by
      push_cast; ring
    rw [h, Int.ceil_natCast]
    push_cast; ring
  · simp only [calc_max_send_wei]
    split
    · next h => omega
    · next h => omega

/-- C5 counterexample: at gas estimate e = 1 the code computes gas limit
int(1 × 1.20) = 1, while ceil(1 × 1.20) = 2 — the claimed ceiling is not
what the code computes (int() truncates). -/
theorem C5_counterexample :
    gas_limit_of (Except.ok 1) = 1 ∧ (⌈((1 : ℕ) : ℚ) * (120 / 100)⌉ : ℤ) = 2 := by
  constructor
  · rw [gas_limit_ok_eq]
  · have h : ((1 : ℕ) : ℚ) * (120 / 100) = 6 / 5 := by norm_num
    rw [h]
    norm_num [Int.ceil_eq_iff]

/-- C5 amended: for every successful gas estimation e the gas limit used in
the broadcast deposit transaction equals the truncation ⌊e × 1.20⌋ (Python
int() rounds toward zero, not up); when estimation fails, it equals the
fixed fallback 300000. -/
theorem C5_gas_limit_trunc_and_fallback (e : ℕ) (s : String) :
    gas_limit_of (Except.ok e) = (⌊(e : ℚ) * (120 / 100)⌋).toNat
  ∧ gas_limit_of (Except.error s) = fallback_gas_limit := by
  constructor
  · simp only [gas_limit_of]
    rw [pyInt_eq_floor _ (by positivity)]
  · rfl

/-- The 22 hexadecimal digit characters: the ten digits, then the lowercase
and the uppercase letters a–f. -/
def hexDigitChars : List Char :=
  (List.range 10).map (fun d => Char.ofNat (48 + d)) ++
    (List.range 6).map (fun d => Char.ofNat (97 + d)) ++
      (List.range 6).map (fun d => Char.ofNat (65 + d))

theorem hexChar_facts : ∀ c ∈ hexDigitChars,
    c.isWhitespace = false ∧ (Char.toLower c).isWhitespace = false ∧
    Char.toLower c ≠ 'x' ∧ Char.toLower c ∈ hexDigitChars := by decide

theorem dropWhile_eq_self_of_forall {p : Char → Bool} (l : List Char)
    (h : ∀ c ∈ l, p c = false) : l.dropWhile p = l := by
  cases l with
  | nil => rfl
  | cons a t =>
    rw [List.dropWhile_cons, h a (by simp)]
    simp

theorem pyStripChars_eq_self (l : List Char) (h : ∀ c ∈ l, c.isWhitespace = false) :
    pyStripChars l = l := by
  unfold pyStripChars
  rw [dropWhile_eq_self_of_forall l h,
    dropWhile_eq_self_of_forall _ (fun c hc => h c (List.mem_reverse.mp hc)),
    List.reverse_reverse]

theorem dropZeroX_eq_self_of_lower_hex (l : List Char) (hl : ∀ c ∈ l, c ∈ hexDigitChars) :
    dropZeroX (pyLowerChars l) = pyLowerChars l := by
  rw [dropZeroX.eq_def]
  split
  · next heq =>
    cases l with
    | nil => simp [pyLowerChars] at heq
    | cons c1 t1 =>
      cases t1 with
      | nil => simp [pyLowerChars] at heq
      | cons c2 t2 =>
        simp only [pyLowerChars, List.map_cons, List.cons.injEq] at heq
        exact absurd heq.2.1 (hexChar_facts c2 (hl c2 (by simp))).2.2.1
  · rfl

/-- C6: for every hex commitment-identifier string, the derived commitment
integer is invariant under adding a "0x" prefix and under letter case, and
"0xAB", "ab" both yield 171 while "0x2a" yields 42. -/
theorem C6_commitment_prefix_case_invariant (l : List Char)
    (hl : ∀ c ∈ l, c ∈ hexDigitChars) :
    (quote_id_to_commitment_int ('0' :: 'x' :: l) = quote_id_to_commitment_int l)
  ∧ (∀ m, (∀ c ∈ m, c ∈ hexDigitChars) → pyLowerChars l = pyLowerChars m →
      quote_id_to_commitment_int l = quote_id_to_commitment_int m)
  ∧ quote_id_commitment "0xAB" = some 171
  ∧ quote_id_commitment "ab" = some 171
  ∧ quote_id_commitment "0x2a" = some 42 := by
  have hws : ∀ c ∈ l, c.isWhitespace = false := fun c hc => (hexChar_facts c (hl c hc)).1
  have hstrip : pyStripChars l = l := pyStripChars_eq_self l hws
  refine ⟨?_, ?_, by decide, by decide, by decide⟩
  · have hws2 : ∀ c ∈ ('0' :: 'x' :: l), c.isWhitespace = false := by
      intro c hc
      rw [List.mem_cons] at hc
      rcases hc with heq | hc
      · rw [heq]; decide
      rw [List.mem_cons] at hc
      rcases hc with heq | hc
      · rw [heq]; decide
      exact hws c hc
    unfold quote_id_to_commitment_int
    rw [pyStripChars_eq_self _ hws2, hstrip]
    have h0 : Char.toLower '0' = '0' := by decide
    have hx : Char.toLower 'x' = 'x' := by decide
    have hmap : pyLowerChars ('0' :: 'x' :: l) = '0' :: 'x' :: pyLowerChars l := by
      simp only [pyLowerChars, List.map_cons, h0, hx]
    rw [hmap, dropZeroX_eq_self_of_lower_hex l hl]
    rfl
  · intro m hm hlm
    have hwsm : ∀ c ∈ m, c.isWhitespace = false := fun c hc => (hexChar_facts c (hm c hc)).1
    unfold quote_id_to_commitment_int
    rw [hstrip, pyStripChars_eq_self m hwsm, hlm]

theorem C6_witness :
    (∀ c ∈ ['a', 'b'], c ∈ hexDigitChars)
  ∧ quote_id_to_commitment_int ('0' :: 'x' :: ['a', 'b']) =
      quote_id_to_commitment_int ['a', 'b'] :=
  ⟨by decide, (C6_commitment_prefix_case_invariant ['a', 'b'] (by decide)).1⟩

theorem holdingCount_init (k : ℕ) : holdingCount (initPhases k) = 0 := by
  induction k with
  | zero => rfl
  | succ n ih =>
    simp only [initPhases, List.replicate] at ih ⊢
    simp [holdingCount, ih]

theorem holdingCount_set (l : List TaskPhase) (i : ℕ) (a b : TaskPhase)
    (h : l.get? i = some a) :
    holdingCount (l.set i b) + (if a = TaskPhase.holding then 1 else 0) =
    holdingCount l + (if b = TaskPhase.holding then 1 else 0) := by
  induction l generalizing i with
  | nil => simp at h
  | cons x t ih =>
    cases i with
    | zero =>
      simp only [List.get?] at h
      injection h with h
      subst h
      simp only [List.set, holdingCount]
      omega
    | succ j =>
      simp only [List.get?] at h
      have := ih j h
      simp only [List.set, holdingCount]
      omega

theorem semStep_bound {N : ℕ} {s1 s2 : List TaskPhase} (h : SemStep N s1 s2)
    (hle : holdingCount s1 ≤ N) : holdingCount s2 ≤ N := by
  cases h with
  | acquire i hw hcap =>
    have hset := holdingCount_set s1 i TaskPhase.waiting TaskPhase.holding hw
    rw [if_neg (by decide : ¬(TaskPhase.waiting = TaskPhase.holding)), if_pos rfl] at hset
    omega
  | release i hh =>
    have hset := holdingCount_set s1 i TaskPhase.holding TaskPhase.finished hh
    rw [if_pos rfl, if_neg (by decide : ¬(TaskPhase.finished = TaskPhase.holding))] at hset
    omega

/-- C9: for every configured concurrency capacity N and every wallet count
k ≥ N, in every state reachable during the batch run at most N workflows
hold the semaphore simultaneously. -/
theorem C9_semaphore_bound (N k : ℕ) (s : List TaskPhase) (hk : N ≤ k)
    (hs : SemReachable N k s) : holdingCount s ≤ N := by
  unfold SemReachable at hs
  induction hs with
  | refl => rw [holdingCount_init]; exact Nat.zero_le N
  | tail _ hstep ih => exact semStep_bound hstep ih

theorem C9_witness : 1 ≤ 2 ∧ holdingCount (initPhases 2) ≤ 1 :=
  ⟨by norm_num,
    C9_semaphore_bound 1 2 (initPhases 2) (by norm_num) Relation.ReflTransGen.refl⟩

theorem charDigitVal_digitCharOf (d : ℕ) (h : d < 10) :
    charDigitVal (digitCharOf d) = some d := by
  interval_cases d <;> decide

theorem digitCharOf_ne_dot (d : ℕ) (h : d < 10) : digitCharOf d ≠ '.' := by
  interval_cases d <;> decide

theorem foldl_digits_map (m : List ℕ) (acc : ℕ) (h : ∀ d ∈ m, d < 10) :
    (m.map digitCharOf).foldl (fun a c => a * 10 + (charDigitVal c).getD 0) acc
      = acc * 10 ^ m.length + Nat.ofDigits 10 m.reverse := by
  induction m generalizing acc with
  | nil => simp [Nat.ofDigits_nil]
  | cons d t ih =>
    simp only [List.map_cons, List.foldl_cons]
    rw [charDigitVal_digitCharOf d (h d (by simp))]
    rw [ih (acc * 10 + (Option.some d).getD 0) (fun x hx => h x (by simp [hx]))]
    simp only [Option.getD_some, List.reverse_cons, Nat.ofDigits_append,
      List.length_cons, List.length_reverse, Nat.ofDigits_cons, Nat.ofDigits_nil]
    ring

theorem digitsVal_map (m : List ℕ) (h : ∀ d ∈ m, d < 10) :
    digitsVal (m.map digitCharOf) = some (Nat.ofDigits 10 m.reverse) := by
  unfold digitsVal
  rw [if_pos, foldl_digits_map m 0 h]
  · simp
  · rw [List.all_eq_true]
    intro c hc
    obtain ⟨d, hd, rfl⟩ := List.mem_map.mp hc
    rw [charDigitVal_digitCharOf d (h d hd)]
    rfl

theorem natDigitsBE_val (n : ℕ) : digitsVal (natDigitsBE n) = some n := by
  by_cases hn : n = 0
  · subst hn; decide
  · unfold natDigitsBE
    rw [if_neg hn, ← List.map_reverse, digitsVal_map]
    · rw [List.reverse_reverse, Nat.ofDigits_digits]
    · intro d hd
      exact Nat.digits_lt_base (by norm_num) (List.mem_reverse.mp hd)

theorem natDigitsBE_no_dot (n : ℕ) : ∀ c ∈ natDigitsBE n, c ≠ '.' := by
  intro c hc
  unfold natDigitsBE at hc
  by_cases hn : n = 0
  · rw [if_pos hn] at hc; simp at hc; rw [hc]; decide
  · rw [if_neg hn] at hc
    obtain ⟨d, hd, rfl⟩ := List.mem_map.mp (List.mem_reverse.mp hc)
    exact digitCharOf_ne_dot d (Nat.digits_lt_base (by norm_num) hd)

theorem natDigitsBE_ne_nil (n : ℕ) : natDigitsBE n ≠ [] := by
  unfold natDigitsBE
  by_cases hn : n = 0
  · rw [if_pos hn]; simp
  · rw [if_neg hn]
    simp [Nat.digits_ne_nil_iff_ne_zero, hn]

theorem ofDigits_replicate_zero (n : ℕ) : Nat.ofDigits 10 (List.replicate n 0) = 0 := by
  induction n with
  | zero => rfl
  | succ k ih => simp [List.replicate, Nat.ofDigits_cons, ih]

theorem fracLE18_ofDigits (fp : ℕ) : Nat.ofDigits 10 (fracLE18 fp) = fp := by
  unfold fracLE18
  rw [Nat.ofDigits_append, Nat.ofDigits_digits, ofDigits_replicate_zero]
  simp

theorem fracLE18_length (fp : ℕ) (h : fp < 10 ^ 18) : (fracLE18 fp).length = 18 := by
  unfold fracLE18
  rw [List.length_append, List.length_replicate]
  have hle : (Nat.digits 10 fp).length ≤ 18 := by
    by_cases hfp : fp = 0
    · simp [hfp]
    · rw [Nat.digits_len 10 fp (by norm_num) hfp]
      have := (Nat.lt_pow_iff_log_lt (by norm_num : 1 < 10) hfp).mp h
      omega
  omega

theorem fracLE18_lt (fp : ℕ) : ∀ d ∈ fracLE18 fp, d < 10 := by
  intro d hd
  unfold fracLE18 at hd
  rcases List.mem_append.mp hd with h | h
  · exact Nat.digits_lt_base (by norm_num) h
  · rw [List.eq_of_mem_replicate h]; norm_num

theorem ofDigits_dropWhile_zero (l : List ℕ) :
    Nat.ofDigits 10 (l.dropWhile (fun d => d = 0)) *
      10 ^ (l.length - (l.dropWhile (fun d => d = 0)).length) = Nat.ofDigits 10 l := by
  induction l with
  | nil => simp
  | cons d t ih =>
    by_cases hd : d = 0
    · subst hd
      have hdw : (0 :: t).dropWhile (fun d => decide (d = 0)) =
          t.dropWhile (fun d => decide (d = 0)) := by
        simp [List.dropWhile_cons]
      rw [hdw]
      have hk : (t.dropWhile (fun d => decide (d = 0))).length ≤ t.length :=
        (List.dropWhile_sublist _).length_le
      rw [List.length_cons, Nat.ofDigits_cons]
      have hexp : t.length + 1 - (t.dropWhile (fun d => decide (d = 0))).length =
          (t.length - (t.dropWhile (fun d => decide (d = 0))).length) + 1 := by omega
      rw [hexp, pow_succ, ← mul_assoc, ih]
      ring
    · rw [List.dropWhile_cons, if_neg (by simp [hd])]
      simp

theorem takeWhile_eq_self_of_forall {p : Char → Bool} (l : List Char)
    (h : ∀ c ∈ l, p c = true) : l.takeWhile p = l := by
  induction l with
  | nil => rfl
  | cons a t ih =>
    rw [List.takeWhile_cons, h a (by simp)]
    simp only [if_true]
    rw [ih (fun c hc => h c (by simp [hc]))]

theorem dropWhile_eq_nil_of_forall {p : Char → Bool} (l : List Char)
    (h : ∀ c ∈ l, p c = true) : l.dropWhile p = [] := by
  induction l with
  | nil => rfl
  | cons a t ih =>
    rw [List.dropWhile_cons, h a (by simp)]
    simp only [if_true]
    exact ih (fun c hc => h c (by simp [hc]))

theorem splitAtDot_no_dot (l : List Char) (h : ∀ c ∈ l, c ≠ '.') :
    splitAtDot l = (l, []) := by
  unfold splitAtDot
  rw [List.span_eq_take_drop]
  have hp : ∀ c ∈ l, (fun c => decide (c ≠ '.')) c = true := by
    intro c hc; simp [h c hc]
  rw [takeWhile_eq_self_of_forall l hp, dropWhile_eq_nil_of_forall l hp]

theorem takeWhile_append_dot (a b : List Char) (h : ∀ c ∈ a, c ≠ '.') :
    (a ++ '.' :: b).takeWhile (fun c => decide (c ≠ '.')) = a := by
  induction a with
  | nil => simp [List.takeWhile_cons]
  | cons x t ih =>
    rw [List.cons_append, List.takeWhile_cons]
    have hx : (decide (x ≠ '.')) = true := by simp [h x (by simp)]
    rw [hx]
    simp only [if_true]
    rw [ih (fun c hc => h c (by simp [hc]))]

theorem dropWhile_append_dot (a b : List Char) (h : ∀ c ∈ a, c ≠ '.') :
    (a ++ '.' :: b).dropWhile (fun c => decide (c ≠ '.')) = '.' :: b := by
  induction a with
  | nil => simp [List.dropWhile_cons]
  | cons x t ih =>
    rw [List.cons_append, List.dropWhile_cons]
    have hx : (decide (x ≠ '.')) = true := by simp [h x (by simp)]
    rw [hx]
    simp only [if_true]
    exact ih (fun c hc => h c (by simp [hc]))

theorem splitAtDot_append (a b : List Char) (h : ∀ c ∈ a, c ≠ '.') :
    splitAtDot (a ++ '.' :: b) = (a, b) := by
  unfold splitAtDot
  rw [List.span_eq_take_drop, takeWhile_append_dot a b h, dropWhile_append_dot a b h]

theorem contains_dot_false (l : List Char) (h : ∀ c ∈ l, c ≠ '.') :
    l.contains '.' = false := by
  simp only [List.contains_eq_any_beq, List.any_eq_false]
  intro c hc
  simp [(h c hc).symm]

theorem to_wei_parts (l a b : List Char) (ip fv : ℕ)
    (hsplit : splitAtDot l = (a, b))
    (hne : a ≠ []) (hbd : ∀ c ∈ b, c ≠ '.') (hlen : b.length ≤ 18)
    (ha : digitsVal a = some ip) (hb : digitsVal b = some fv) :
    to_wei_ether l = some (ip * 10 ^ 18 + fv * 10 ^ (18 - b.length)) := by
  unfold to_wei_ether
  rw [hsplit]
  simp only
  rw [if_neg (by simp [hne]),
    if_neg (by simp only [List.contains_eq_any_beq, List.any_eq_true, beq_iff_eq,
      not_exists, not_and]; intro c hc he; exact hbd c hc he.symm), ha, hb]
  simp only
  rw [if_pos hlen]

theorem fracCharsOf_no_dot (fp : ℕ) : ∀ c ∈ fracCharsOf fp, c ≠ '.' := by
  intro c hc
  unfold fracCharsOf at hc
  obtain ⟨d, hd, rfl⟩ := List.mem_map.mp hc
  have hdm : d ∈ fracLE18 fp :=
    (List.dropWhile_sublist _).subset (List.mem_reverse.mp hd)
  exact digitCharOf_ne_dot d (fracLE18_lt fp d hdm)

theorem fracCharsOf_val (fp : ℕ) :
    digitsVal (fracCharsOf fp) =
      some (Nat.ofDigits 10 ((fracLE18 fp).dropWhile (fun d => d = 0))) := by
  unfold fracCharsOf
  rw [digitsVal_map]
  · rw [List.reverse_reverse]
  · intro d hd
    exact fracLE18_lt fp d ((List.dropWhile_sublist _).subset (List.mem_reverse.mp hd))

theorem fracCharsOf_length_le (fp : ℕ) (h : fp < 10 ^ 18) :
    (fracCharsOf fp).length ≤ 18 := by
  unfold fracCharsOf
  rw [List.length_map, List.length_reverse]
  calc ((fracLE18 fp).dropWhile (fun d => d = 0)).length
      ≤ (fracLE18 fp).length := (List.dropWhile_sublist _).length_le
    _ = 18 := fracLE18_length fp h

theorem to_wei_from_wei (w : ℕ) : to_wei_ether (from_wei_ether_str w) = some w := by
  have hpow : 0 < 10 ^ 18 := by positivity
  have hfp_lt : w % 10 ^ 18 < 10 ^ 18 := Nat.mod_lt _ hpow
  have hw : 10 ^ 18 * (w / 10 ^ 18) + w % 10 ^ 18 = w := Nat.div_add_mod w (10 ^ 18)
  unfold from_wei_ether_str
  by_cases hfp : w % 10 ^ 18 = 0
  · rw [if_pos hfp]
    rw [to_wei_parts (natDigitsBE (w / 10 ^ 18)) (natDigitsBE (w / 10 ^ 18)) [] (w / 10 ^ 18) 0
      (splitAtDot_no_dot _ (natDigitsBE_no_dot _)) (natDigitsBE_ne_nil _)
      (by simp) (by simp) (natDigitsBE_val _) (by decide)]
    congr 1
    simp only [List.length_nil, Nat.sub_zero, Nat.zero_mul]
    omega
  · rw [if_neg hfp]
    rw [to_wei_parts _ (natDigitsBE (w / 10 ^ 18)) (fracCharsOf (w % 10 ^ 18)) (w / 10 ^ 18)
      (Nat.ofDigits 10 ((fracLE18 (w % 10 ^ 18)).dropWhile (fun d => d = 0)))
      (splitAtDot_append _ _ (natDigitsBE_no_dot _)) (natDigitsBE_ne_nil _)
      (fracCharsOf_no_dot _) (fracCharsOf_length_le _ hfp_lt)
      (natDigitsBE_val _) (fracCharsOf_val _)]
    congr 1
    have hlen : (fracCharsOf (w % 10 ^ 18)).length =
        ((fracLE18 (w % 10 ^ 18)).dropWhile (fun d => d = 0)).length := by
      unfold fracCharsOf
      rw [List.length_map, List.length_reverse]
    rw [hlen]
    have h18 : (fracLE18 (w % 10 ^ 18)).length = 18 := fracLE18_length _ hfp_lt
    have hoD := ofDigits_dropWhile_zero (fracLE18 (w % 10 ^ 18))
    rw [h18] at hoD
    rw [hoD, fracLE18_ofDigits]
    omega

/-- C7: for every fetched route config with no entry for the configured
source chain, the workflow fails with the error naming the available chain
keys (sorted, comma-joined), and the trace shows no quote request was ever
sent (only the auth and config calls happened). -/
theorem C7_missing_chain_fails_no_quote (env : SwapEnv) (amt : Option ℚ)
    (d : List (String × String)) (cfgs : List (String × ChainCfgJson))
    (hauth : env.authResult = Except.ok d)
    (hjwt : (jwtFromAuthData d).isSome = true)
    (hcfg : env.configsResult = Except.ok cfgs)
    (hmiss : ∀ p ∈ cfgs, p.1 ≠ CHAIN_IN) :
    process_swap env amt =
      ((false, "chainIn 'OPBNB' not found in configs. Available: " ++
        String.intercalate ", " (sortStrs (cfgs.map (fun p => p.1)))),
       [NetCall.auth, NetCall.configsFetch]) := by
  obtain ⟨j, hj⟩ := Option.isSome_iff_exists.mp hjwt
  have hfind : cfgs.find? (fun p => p.1 = CHAIN_IN) = none := by
    rw [List.find?_eq_none]
    intro x hx
    simpa using hmiss x hx
  simp only [process_swap, process_swap_body, get_jwt, hauth, hj, hcfg, hfind]
  rfl

/-! ## Concrete sample environments for witnesses and counterexamples -/

/-- A well-formed OPBNB route entry. -/
def sampleChainCfg : ChainCfgJson :=
  { chainId := some 204, contractAddress := some "0xBridgeContract",
    nativeTokenName := some "BNB" }

/-- A quote response carrying a quote id. -/
def sampleQuote : QuoteJson :=
  { quoteId := some "0x2a", payAmount := some "0.998125",
    receiveAmount := some "0.998" }

/-- An environment in which every network call succeeds: balance 1 BNB
(10^18 wei), gas price 5 gwei, estimate 100000, all responses well-formed. -/
def sampleEnv : SwapEnv :=
  { authResult := Except.ok [("token", "JWT")]
    configsResult := Except.ok [("OPBNB", sampleChainCfg)]
    w3ChainIdResult := Except.ok 204
    balanceResult := Except.ok 1000000000000000000
    gasPriceResult := Except.ok 5000000000
    gasPriceResult2 := Except.ok 5000000000
    estimateResult := Except.ok 100000
    nonceResult := Except.ok 7
    sendResult := Except.ok "deadbeef"
    quoteResult := Except.ok sampleQuote
    commitResult := Except.ok { quoteId := some "0x2a" } }

/-- An environment whose very first call (auth) raises. -/
def envAuthErr : SwapEnv :=
  { sampleEnv with
    authResult := Except.error "HTTP 500 /authentication/auth/apiKey: upstream" }

/-- An environment whose auth response has the candidate field present but
empty. -/
def envTokenEmpty : SwapEnv :=
  { sampleEnv with authResult := Except.ok [("token", "")] }

/-- A wallet whose private key does not parse: `RhinoSwapModule.__init__`
(`from_key`) raises before `safe_swap`'s `try:` is entered. -/
def taskBadKey : WalletTask :=
  { keyParseResult := Except.error "The private key must be exactly 32 bytes long, instead of 7 bytes."
    delay := 0, env := envAuthErr, amount := none }

/-- A wallet with a parseable key whose workflow fails at the auth call. -/
def taskOkKey : WalletTask :=
  { keyParseResult := Except.ok "0xGoodAddress", delay := 0, env := envAuthErr,
    amount := none }

/-- An environment whose auth call raises with a different error text than
`envAuthErr`. -/
def envAuthErr2 : SwapEnv :=
  { sampleEnv with
    authResult := Except.error "HTTP 502 /authentication/auth/apiKey: bad gateway" }

/-- The same wallet as `taskOkKey` but failing with the `envAuthErr2` error:
its workflow outcome differs from `taskOkKey`'s in the error detail only. -/
def taskOkKey2 : WalletTask :=
  { keyParseResult := Except.ok "0xGoodAddress", delay := 0, env := envAuthErr2,
    amount := none }

/-! ## C8: JWT extraction -/

/-- The ordered candidate field names of `_get_jwt`. -/
def jwtCandidateKeys : List String := ["token", "jwt", "accessToken", "authorization"]

/-- Modelled from the spec (amended reading): the explicit ordered
candidate-key list, accepting the first candidate that is present with a
non-empty value. -/
def firstTruthyCandidate (d : List (String × String)) : Option String :=
  jwtCandidateKeys.findSome? (fun k => truthyStr (pyDictGet d k))

/-- Modelled from the claim's words: the first *present* match among the
ordered candidate field names, regardless of its value. -/
def firstPresentCandidate (d : List (String × String)) : Option String :=
  jwtCandidateKeys.findSome? (fun k => pyDictGet d k)

/-- C8 amended: the bearer token is the first candidate field (in the order
token, jwt, accessToken, authorization) that is present with a non-empty
value; when no candidate is truthy, the workflow fails with the auth error
before any quote request (the trace is exactly the auth call). -/
theorem C8_first_truthy_and_auth_error (env : SwapEnv) (amt : Option ℚ)
    (d : List (String × String)) (hauth : env.authResult = Except.ok d) :
    jwtFromAuthData d = firstTruthyCandidate d
  ∧ (jwtFromAuthData d = none →
      process_swap env amt =
        ((false, "Can't find JWT in response: " ++ pyDictRepr d), [NetCall.auth])) := by
  constructor
  · unfold jwtFromAuthData firstTruthyCandidate jwtCandidateKeys
    simp only [List.findSome?_cons, List.findSome?_nil]
    cases truthyStr (pyDictGet d "token") <;>
      cases truthyStr (pyDictGet d "jwt") <;>
        cases truthyStr (pyDictGet d "accessToken") <;>
          cases truthyStr (pyDictGet d "authorization") <;> rfl
  · intro h0
    simp only [process_swap, process_swap_body, get_jwt, hauth, h0]

/-- C8 counterexample: on the response \x7b"token": "", "jwt": "B"\x7d the
first *present* candidate is "token" (value ""), but the code takes "B";
and on \x7b"token": ""\x7d a candidate is present yet the workflow fails
with the auth error. -/
theorem C8_counterexample :
    firstPresentCandidate [("token", ""), ("jwt", "B")] = some ""
  ∧ jwtFromAuthData [("token", ""), ("jwt", "B")] = some "B"
  ∧ pyDictGet [("token", "")] "token" = some ""
  ∧ process_swap envTokenEmpty none =
      ((false, "Can't find JWT in response: \x7b'token': ''\x7d"), [NetCall.auth]) := by
  refine ⟨rfl, rfl, rfl, ?_⟩
  rfl

theorem C8_witness :
    sampleEnv.authResult = Except.ok [("token", "JWT")]
  ∧ jwtFromAuthData [("token", "JWT")] = firstTruthyCandidate [("token", "JWT")] :=
  ⟨rfl, (C8_first_truthy_and_auth_error sampleEnv none [("token", "JWT")] rfl).1⟩

/-- C3 amended: for every explicit amount ≤ 0, once authentication, config
fetch and route validation succeed, the workflow fails with the
amount-precondition error, and the only network calls made are the auth
call, the config fetch, and possibly a chain-id read — no quote request,
balance or gas-price read, gas estimate, or broadcast happens. -/
theorem C3_nonpositive_amount (env : SwapEnv) (a : ℚ) (d : List (String × String))
    (cfgs : List (String × ChainCfgJson)) (k : String) (cfg : ChainCfgJson)
    (ha : a ≤ 0)
    (hauth : env.authResult = Except.ok d)
    (hjwt : (jwtFromAuthData d).isSome = true)
    (hcfg : env.configsResult = Except.ok cfgs)
    (hfind : cfgs.find? (fun p => p.1 = CHAIN_IN) = some (k, cfg))
    (hcid : (truthyNat cfg.chainId).isSome = true ∨ env.w3ChainIdResult.isOk = true)
    (hba : (truthyStr cfg.contractAddress).isSome = true)
    (htok : truthyStr cfg.nativeTokenName = none ∨
      truthyStr cfg.nativeTokenName = some TOKEN_IN) :
    (process_swap env (some a)).1 = (false, "Amount must be > 0 (or None for max balance).")
  ∧ NetCall.auth ∈ (process_swap env (some a)).2
  ∧ ∀ c ∈ (process_swap env (some a)).2,
      c = NetCall.auth ∨ c = NetCall.configsFetch ∨ c = NetCall.chainIdRead := by
  obtain ⟨j, hj⟩ := Option.isSome_iff_exists.mp hjwt
  obtain ⟨ba, hba2⟩ := Option.isSome_iff_exists.mp hba
  have hbody : ∀ t : List NetCall, process_swap_rest env (some a) t =
      (Except.error "Amount must be > 0 (or None for max balance).", t) := by
    intro t
    simp only [process_swap_rest, if_pos ha]
  rcases hcid with hcid | hcid
  · obtain ⟨cid, hcid2⟩ := Option.isSome_iff_exists.mp hcid
    rcases htok with htok | htok <;>
      · simp only [process_swap, process_swap_body, get_jwt, hauth, hj, hcfg, hfind,
          hcid2, hba2, htok, hbody, if_neg (by simp : ¬(TOKEN_IN ≠ TOKEN_IN))]
        refine ⟨by trivial, by simp, ?_⟩
        intro c hc
        simp at hc
        rcases hc with hc | hc <;> simp [hc]
  · rcases hrpc : env.w3ChainIdResult with e | cid
    · rw [hrpc] at hcid; simp [Except.isOk, Except.toBool] at hcid
    rcases hcid0 : truthyNat cfg.chainId with _ | cid0
    · rcases htok with htok | htok <;>
        · simp only [process_swap, process_swap_body, get_jwt, hauth, hj, hcfg, hfind,
            hcid0, hrpc, hba2, htok, hbody, if_neg (by simp : ¬(TOKEN_IN ≠ TOKEN_IN))]
          refine ⟨by trivial, by simp, ?_⟩
          intro c hc
          simp at hc
          rcases hc with hc | hc | hc <;> simp [hc]
    · rcases htok with htok | htok <;>
        · simp only [process_swap, process_swap_body, get_jwt, hauth, hj, hcfg, hfind,
            hcid0, hba2, htok, hbody, if_neg (by simp : ¬(TOKEN_IN ≠ TOKEN_IN))]
          refine ⟨by trivial, by simp, ?_⟩
          intro c hc
          simp at hc
          rcases hc with hc | hc <;> simp [hc]

/-- C3 counterexample: with amount −1 the workflow does make network calls
before failing — the trace already holds the auth call and the config fetch,
so the failure is not "before any network call" as claimed. -/
theorem C3_counterexample :
    process_swap sampleEnv (some (-1)) =
      ((false, "Amount must be > 0 (or None for max balance)."),
        [NetCall.auth, NetCall.configsFetch]) := by
  rfl

theorem C3_witness :
    (-1 : ℚ) ≤ 0
  ∧ (process_swap sampleEnv (some (-1))).1 =
      (false, "Amount must be > 0 (or None for max balance).") :=
  ⟨by norm_num,
    (C3_nonpositive_amount sampleEnv (-1) [("token", "JWT")] [("OPBNB", sampleChainCfg)]
      "OPBNB" sampleChainCfg (by norm_num) rfl rfl rfl rfl (Or.inl rfl) rfl
      (Or.inr rfl)).1⟩

def envNoChain : SwapEnv :=
  { sampleEnv with
    configsResult := Except.ok [("BINANCE", sampleChainCfg), ("ETHEREUM", sampleChainCfg)] }

theorem C7_witness :
    process_swap envNoChain none =
      ((false, "chainIn 'OPBNB' not found in configs. Available: BINANCE, ETHEREUM"),
       [NetCall.auth, NetCall.configsFetch]) := by
  have h := C7_missing_chain_fails_no_quote envNoChain none [("token", "JWT")]
    [("BINANCE", sampleChainCfg), ("ETHEREUM", sampleChainCfg)] rfl rfl rfl (by decide)
  rw [h]
  rfl

/-- C1 amended: for every batch whose private keys all parse, exactly one
result record — the wallet's address, its success flag, and the fixed tag
"rhino_bridge" (no per-wallet tx-hash/error detail) — is persisted per input
wallet: the records are precisely the per-wallet map of wallet_record, so
wallet i's record depends only on wallet i's own task and one wallet's
workflow failure cannot affect any sibling's record. -/
theorem C1_batch_records_per_wallet (ts : List WalletTask)
    (h : ∀ t ∈ ts, t.keyParseResult.isOk = true) :
    batch_records ts = ts.map wallet_record
  ∧ (batch_records ts).length = ts.length
  ∧ ∀ i : ℕ, (batch_records ts).get? i = (ts.get? i).map wallet_record := by
  have hmain : batch_records ts = ts.map wallet_record := by
    induction ts with
    | nil => rfl
    | cons t r ih =>
      have ht := h t (by simp)
      rcases hk : t.keyParseResult with e | addr
      · rw [hk] at ht; simp [Except.isOk, Except.toBool] at ht
      · have hss : safe_swap t = Except.ok (wallet_record t) := by
          simp [safe_swap, wallet_record, hk, Except.toOption]
        simp only [batch_records, List.foldr] at ih ⊢
        rw [hss, List.map_cons, ih (fun x hx => h x (by simp [hx]))]
  refine ⟨hmain, by rw [hmain, List.length_map], ?_⟩
  intro i
  rw [hmain, List.get?_map]

/-- C1 counterexample, both divergences from the claim demonstrated. First,
the record count: a batch of two wallets where the first key does not parse
persists only one record. Second, the record shape: the claim's record is
"(address, success flag, detail)", but `Bot.safe_swap` (bot.py line 41)
passes `export_result` only the address, the status and the fixed tag
"rhino_bridge" — two wallets whose workflows fail with different error
details ("HTTP 500 …" vs "HTTP 502 …") persist byte-identical records, so
no per-wallet tx-hash/error detail is persisted. -/
theorem C1_counterexample :
    ([taskBadKey, taskOkKey] : List WalletTask).length = 2
  ∧ (batch_records [taskBadKey, taskOkKey]).length = 1
  ∧ batch_records [taskBadKey, taskOkKey] =
      [{ address := "0xGoodAddress", success := false, category := "rhino_bridge" }]
  ∧ (process_swap taskOkKey.env taskOkKey.amount).1 =
      (false, "HTTP 500 /authentication/auth/apiKey: upstream")
  ∧ (process_swap taskOkKey2.env taskOkKey2.amount).1 =
      (false, "HTTP 502 /authentication/auth/apiKey: bad gateway")
  ∧ batch_records [taskOkKey] = batch_records [taskOkKey2] :=
  ⟨rfl, rfl, rfl, rfl, rfl, rfl⟩

theorem C1_witness :
    (∀ t ∈ [taskOkKey], t.keyParseResult.isOk = true)
  ∧ batch_records [taskOkKey] = [taskOkKey].map wallet_record := by
  have hh : ∀ t ∈ [taskOkKey], t.keyParseResult.isOk = true := by
    intro t ht
    simp at ht
    rw [ht]
    rfl
  exact ⟨hh, (C1_batch_records_per_wallet [taskOkKey] hh).1⟩

theorem max_path_attached_value (env : SwapEnv) (d : List (String × String)) (j : String)
    (cfgs : List (String × ChainCfgJson)) (k : String) (cfg : ChainCfgJson)
    (cid : ℕ) (ba : String) (bal gp : ℕ) (q : QuoteJson) (qid : String)
    (cr : CommitJson) (ccid : String) (z : ℤ) (gp2 non : ℕ) (tx : String)
    (hauth : env.authResult = Except.ok d)
    (hj : jwtFromAuthData d = some j)
    (hcfg : env.configsResult = Except.ok cfgs)
    (hfind : cfgs.find? (fun p => p.1 = CHAIN_IN) = some (k, cfg))
    (hcid : truthyNat cfg.chainId = some cid)
    (hba : truthyStr cfg.contractAddress = some ba)
    (htok : truthyStr cfg.nativeTokenName = some TOKEN_IN)
    (hbal : env.balanceResult = Except.ok bal)
    (hgp : env.gasPriceResult = Except.ok gp)
    (hms : 0 < calc_max_send_wei bal gp)
    (hquote : env.quoteResult = Except.ok q)
    (hqid : truthyStr q.quoteId = some qid)
    (hcommit : env.commitResult = Except.ok cr)
    (hccid : truthyStr cr.quoteId = some ccid)
    (hz : quote_id_commitment ccid = some z)
    (hgp2 : env.gasPriceResult2 = Except.ok gp2)
    (hnon : env.nonceResult = Except.ok non)
    (hsend : env.sendResult = Except.ok tx) :
    process_swap env none =
      ((true, tx),
       [NetCall.auth, NetCall.configsFetch, NetCall.balanceRead, NetCall.gasPriceRead,
        NetCall.quoteReq (from_wei_ether_str (calc_max_send_wei bal gp).toNat),
        NetCall.commitReq qid, NetCall.gasPriceRead,
        NetCall.estimateGasCall (calc_max_send_wei bal gp).toNat, NetCall.nonceRead,
        NetCall.sendTx (calc_max_send_wei bal gp).toNat (gas_limit_of env.estimateResult)]) := by
  have hrt := to_wei_from_wei (calc_max_send_wei bal gp).toNat
  simp only [process_swap, process_swap_body, get_jwt, process_swap_rest,
    calc_max_send_wei_run, send_native_deposit, hauth, hj, hcfg, hfind, hcid, hba, htok,
    hbal, hgp, hquote, hqid, hcommit, hccid, hz, hgp2, hnon, hsend, hrt,
    if_neg (by simp : ¬(TOKEN_IN ≠ TOKEN_IN)), if_neg (not_le.mpr hms)]
  simp

/-- C10: in the maximum-available path the wei value attached to the
broadcast deposit transaction equals the computed maximum sendable wei
amount exactly; in particular, for every positive wei amount w, converting w
to a decimal-ether string by full-precision division and converting that
string back to wei yields w. -/
theorem C10_max_value_roundtrip :
    (∀ w : ℕ, 0 < w → to_wei_ether (from_wei_ether_str w) = some w)
  ∧ (∀ (env : SwapEnv) (d : List (String × String)) (j : String)
      (cfgs : List (String × ChainCfgJson)) (k : String) (cfg : ChainCfgJson)
      (cid : ℕ) (ba : String) (bal gp : ℕ) (q : QuoteJson) (qid : String)
      (cr : CommitJson) (ccid : String) (z : ℤ) (gp2 non : ℕ) (tx : String),
      env.authResult = Except.ok d →
      jwtFromAuthData d = some j →
      env.configsResult = Except.ok cfgs →
      cfgs.find? (fun p => p.1 = CHAIN_IN) = some (k, cfg) →
      truthyNat cfg.chainId = some cid →
      truthyStr cfg.contractAddress = some ba →
      truthyStr cfg.nativeTokenName = some TOKEN_IN →
      env.balanceResult = Except.ok bal →
      env.gasPriceResult = Except.ok gp →
      0 < calc_max_send_wei bal gp →
      env.quoteResult = Except.ok q →
      truthyStr q.quoteId = some qid →
      env.commitResult = Except.ok cr →
      truthyStr cr.quoteId = some ccid →
      quote_id_commitment ccid = some z →
      env.gasPriceResult2 = Except.ok gp2 →
      env.nonceResult = Except.ok non →
      env.sendResult = Except.ok tx →
      process_swap env none =
        ((true, tx),
         [NetCall.auth, NetCall.configsFetch, NetCall.balanceRead, NetCall.gasPriceRead,
          NetCall.quoteReq (from_wei_ether_str (calc_max_send_wei bal gp).toNat),
          NetCall.commitReq qid, NetCall.gasPriceRead,
          NetCall.estimateGasCall (calc_max_send_wei bal gp).toNat, NetCall.nonceRead,
          NetCall.sendTx (calc_max_send_wei bal gp).toNat
            (gas_limit_of env.estimateResult)])) :=
  ⟨fun w _ => to_wei_from_wei w, max_path_attached_value⟩

theorem C10_witness : 0 < 5 ∧ to_wei_ether (from_wei_ether_str 5) = some 5 :=
  ⟨by norm_num, C10_max_value_roundtrip.1 5 (by norm_num)⟩
